import Mathlib

/-
Verification development for the orderbook lambda.

The repository ingests an order-book depth stream, derives liquidity metrics
(mid price, spread, imbalance, depth-bucketed cumulative volumes) and persists
time-partitioned records, with a recovery path that detects gaps in the
persisted history and backfills from a REST snapshot.

Numeric model: the program works in f64.  Here every finite f64 value is
modelled by the exact rational it denotes; arithmetic on the inputs appearing
in the theorems below is exact, and a non-finite result of a division (NaN or
an infinity, which arises exactly when the denominator is zero) is modelled by
the value none of an Option.  External collaborators (the JSON codec, the
numeric string parser of the standard library, the blob-store listing and the
ambient clock) are modelled from the spec, as stated at each such definition.
-/

/-- A price level: (price, quantity), both f64 in source, modelled as exact
rationals (spec section 3, PriceLevel). -/
abbrev PriceLevel := ℚ × ℚ

/-- The fixed relative depth offsets D of normalize_to_depths
(main.rs line 97, identically in recovery.rs and test_local.rs); the f64
literals 0.0001, 0.0005, 0.001, 0.005, 0.01 of the source are modelled by the
exact rationals the source text denotes. -/
def depths : List ℚ := [1 / 10000, 5 / 10000, 1 / 1000, 5 / 1000, 1 / 100]

/-- target price for one offset (main.rs line 99): mid * (1 + d) for asks,
mid * (1 - d) for bids. -/
def target_price (mid : ℚ) (is_ask : Bool) (d : ℚ) : ℚ :=
  if is_ask then mid * (1 + d) else mid * (1 - d)

/-- the loop condition of main.rs line 102: a level counts when
(is_ask && price <= target) || (!is_ask && price >= target). -/
def level_qualifies (is_ask : Bool) (target : ℚ) (l : PriceLevel) : Bool :=
  (is_ask && decide (l.1 ≤ target)) || (!is_ask && decide (l.1 ≥ target))

/-- the accumulation loop of main.rs lines 100-105: cum_qty summed over the
qualifying levels, in list order, starting from 0.0. -/
def cum_qty (levels : List PriceLevel) (mid : ℚ) (is_ask : Bool) (d : ℚ) : ℚ :=
  levels.foldl
    (fun c l => if level_qualifies is_ask (target_price mid is_ask d) l then c + l.2 else c) 0

/-- normalize_to_depths (main.rs lines 96-108, identical in recovery.rs lines
103-115 and test_local.rs lines 169-187): one (target, cumulative quantity)
pair per offset of D, in order. -/
def normalize_to_depths (levels : List PriceLevel) (mid : ℚ) (is_ask : Bool) : List (ℚ × ℚ) :=
  depths.map (fun d => (target_price mid is_ask d, cum_qty levels mid is_ask d))

/-- quantity sum over the top 5 levels of a side (main.rs lines 62-63:
iter().take(5).map(|b| b.1).sum()). -/
def top5_vol (side : List PriceLevel) : ℚ :=
  ((side.take 5).map Prod.snd).sum

/-- Modelled from the spec: IEEE-754 f64 division, which the source applies to
exact decimal inputs.  A zero denominator yields a non-finite value (NaN for
0/0, an infinity otherwise), modelled as none; a nonzero denominator yields the
exact quotient. -/
def fdiv (a b : ℚ) : Option ℚ :=
  if b = 0 then none else some (a / b)

/-- the imbalance computation of main.rs line 64 (identical in recovery.rs line
71): (bid_vol - ask_vol) / (bid_vol + ask_vol), with no guard on the
denominator. -/
def imbalance_main (bids asks : List PriceLevel) : Option ℚ :=
  fdiv (top5_vol bids - top5_vol asks) (top5_vol bids + top5_vol asks)

/-- the imbalance computation of test_local.rs lines 95-99: guarded, 0.0 when
bid_vol + ask_vol is not positive. -/
def imbalance_local (bids asks : List PriceLevel) : ℚ :=
  if top5_vol bids + top5_vol asks > 0 then
    (top5_vol bids - top5_vol asks) / (top5_vol bids + top5_vol asks)
  else 0

/-- value of a list of decimal digit characters. -/
def digits_val (cs : List Char) : ℕ :=
  cs.foldl (fun n c => 10 * n + (c.toNat - 48)) 0

/-- Modelled from the spec: the unsigned part of the standard library's textual
f64 parse, restricted to the plain decimal numerals that the spec's level
encoding uses (spec section 6: levels are [price_string, quantity_string]
pairs of decimal strings): digits with at most one decimal point and at least
one digit; anything else fails. -/
def parse_decimal (cs : List Char) : Option ℚ :=
  let ints := cs.takeWhile Char.isDigit
  let rest := cs.dropWhile Char.isDigit
  match rest with
  | [] => if ints.isEmpty then none else some ((digits_val ints : ℤ) : ℚ)
  | c :: frac =>
    if c == '.' && !(ints.isEmpty && frac.isEmpty) && frac.all Char.isDigit then
      some ((digits_val ints : ℚ) + (digits_val frac : ℚ) / (10 : ℚ) ^ frac.length)
    else none

/-- Modelled from the spec: Rust str::parse::<f64> on a level field
(see parse_decimal), with an optional leading minus sign. -/
def parse_f64 (s : String) : Option ℚ :=
  match s.toList with
  | '-' :: rest => (parse_decimal rest).map (fun q => -q)
  | cs => parse_decimal cs

/-- Modelled from the spec: Rust str::parse::<i64> on the key's timestamp
component (a decimal integer, spec section 3), with an optional leading minus
sign; in-range values are modelled exactly. -/
def parse_i64_chars (cs : List Char) : Option ℤ :=
  match cs with
  | '-' :: rest =>
    if !rest.isEmpty && rest.all Char.isDigit then some (-(digits_val rest : ℤ)) else none
  | _ =>
    if !cs.isEmpty && cs.all Char.isDigit then some ((digits_val cs : ℤ)) else none

/-- the level extraction of main.rs lines 49-57: take(20), then for each raw
level b the indexings b[0], b[1] and .parse().unwrap() on both fields; an
out-of-bounds index or a failed parse panics, modelled as none. -/
def parse_levels_main (side : List (List String)) : Option (List PriceLevel) :=
  (side.take 20).mapM (fun lv => do
    let p ← lv.get? 0
    let q ← lv.get? 1
    let pv ← parse_f64 p
    let qv ← parse_f64 q
    pure (pv, qv))

/-- the level extraction of test_local.rs lines 63-83: take(20) then
filter_map, keeping a level only when it has at least two fields and both
parse; a bad level is dropped, the rest survive. -/
def parse_levels_local (side : List (List String)) : List PriceLevel :=
  (side.take 20).filterMap (fun lv =>
    match lv with
    | p :: q :: _ => do
      let pv ← parse_f64 p
      let qv ← parse_f64 q
      pure (pv, qv)
    | _ => none)

/-- the persisted record (OrderBook struct, main.rs lines 9-17): the imbalance
field holds the f64 computed for it, which can be non-finite (none). -/
structure OrderBook where
  timestamp_ms : ℤ
  bids : List (ℚ × ℚ)
  asks : List (ℚ × ℚ)
  spread : ℚ
  mid_price : ℚ
  imbalance_ratio : Option ℚ
deriving DecidableEq

/-- Modelled from the spec: the external JSON codec (spec sections 1 and 6).
decode is serde JSON decoding of a raw text frame into the bids/asks arrays of
raw string levels (BinanceDepth, main.rs lines 19-23), none on failure.  Per
spec section 6 a frame of only decimal digits is a bare JSON number, not an
object carrying bids/asks, so decoding it as a depth message fails: that fact
is the digits_fail field. -/
structure JsonCodec where
  decode : String → Option (List (List String) × List (List String))
  digits_fail : ∀ s : String, s.toList.all Char.isDigit = true → decode s = none

/-- outcome of one process_message call (main.rs lines 46-94): err is an Err
return (the serde failure propagated by the question-mark on line 47),
panicked is a panic (indexing or unwrap), and ok carries the record and the
timestamp component embedded in the partition key (main.rs line 82).
Serialization and the store write are modelled as succeeding. -/
inductive ProcResult where
  | err : ProcResult
  | panicked : ProcResult
  | ok : OrderBook → ℤ → ProcResult
deriving DecidableEq

/-- main.rs lines 49-93 after serde decoding, with the ambient clock passed
explicitly: t_record is the Utc::now() read at record construction (line 70)
and t_key the separate Utc::now() read at key construction (line 79); the key
embeds t_key (line 82).  bids[0]/asks[0] on line 59 panic when a side is
empty. -/
def process_decoded (raw_bids raw_asks : List (List String)) (t_record t_key : ℤ) : ProcResult :=
  match parse_levels_main raw_bids, parse_levels_main raw_asks with
  | some bids, some asks =>
    match bids, asks with
    | b0 :: _, a0 :: _ =>
      let mid_price := (b0.1 + a0.1) / 2
      let spread := a0.1 - b0.1
      ProcResult.ok
        { timestamp_ms := t_record
          bids := normalize_to_depths bids mid_price false
          asks := normalize_to_depths asks mid_price true
          spread := spread
          mid_price := mid_price
          imbalance_ratio := imbalance_main bids asks } t_key
    | _, _ => ProcResult.panicked
  | _, _ => ProcResult.panicked

/-- process_message (main.rs lines 46-94): serde decode, then the decoded
pipeline. -/
def process_message (J : JsonCodec) (s : String) (t_record t_key : ℤ) : ProcResult :=
  match J.decode s with
  | none => ProcResult.err
  | some (rb, ra) => process_decoded rb ra t_record t_key

/-- the timestamp component embedded in the partition key of a persisted
record, when one was persisted. -/
def result_key_ts : ProcResult → Option ℤ
  | ProcResult.ok _ kt => some kt
  | _ => none

/-- the timestamp_ms field stored inside the persisted record, when one was
persisted. -/
def result_record_ts : ProcResult → Option ℤ
  | ProcResult.ok b _ => some b.timestamp_ms
  | _ => none

/-- effect of one iteration of the ingest loop on the backoff state:
looped slept_secs backoff_after, where slept_secs is some b when the iteration
slept b seconds; aborted when the message processing panicked. -/
inductive StepOutcome where
  | looped : Option ℕ → ℕ → StepOutcome
  | aborted : StepOutcome
deriving DecidableEq

/-- the match of function_handler, main.rs lines 34-41: on Ok the backoff is
reset to 1 with no sleep; on any Err the loop sleeps backoff seconds and then
sets backoff to min (backoff * 2) 30; a panic propagates. -/
def handler_step : ProcResult → ℕ → StepOutcome
  | ProcResult.ok _ _, _ => StepOutcome.looped none 1
  | ProcResult.err, b => StepOutcome.looped (some b) (min (b * 2) 30)
  | ProcResult.panicked, _ => StepOutcome.aborted

/-- outcome of one message in test_local.rs's loop (lines 52-137): skip_ping
is the digit-frame continue (lines 54-57), parse_failed the logged serde
failure branch (lines 133-136, no sleep, no record), skip_empty the
empty-side continue (lines 85-88), wrote a written record. -/
inductive LocalOutcome where
  | skip_ping : LocalOutcome
  | parse_failed : LocalOutcome
  | skip_empty : LocalOutcome
  | wrote : OrderBook → LocalOutcome
deriving DecidableEq

/-- test_local.rs lines 52-131: the digit check, serde decode, filter_map
level extraction, empty-side skip, guarded metrics and the record build
(timestamp_ms from the clock read of line 105). -/
def local_step (J : JsonCodec) (s : String) (t_record : ℤ) : LocalOutcome :=
  if s.toList.all Char.isDigit then LocalOutcome.skip_ping
  else
    match J.decode s with
    | none => LocalOutcome.parse_failed
    | some (rb, ra) =>
      match parse_levels_local rb, parse_levels_local ra with
      | b0 :: rest_b, a0 :: rest_a =>
        let bids := b0 :: rest_b
        let asks := a0 :: rest_a
        let mid_price := (b0.1 + a0.1) / 2
        let spread := a0.1 - b0.1
        LocalOutcome.wrote
          { timestamp_ms := t_record
            bids := normalize_to_depths bids mid_price false
            asks := normalize_to_depths asks mid_price true
            spread := spread
            mid_price := mid_price
            imbalance_ratio := some (imbalance_local bids asks) }
      | _, _ => LocalOutcome.skip_empty

/-- whether a local_step outcome wrote a record. -/
def wrote_some : LocalOutcome → Bool
  | LocalOutcome.wrote _ => true
  | _ => false

/-- ascending lexicographic order on character lists (UTF-8 key order). -/
def lex_le (a b : List Char) : Bool :=
  match a, b with
  | [], _ => true
  | _ :: _, [] => false
  | x :: xs, y :: ys => if x = y then lex_le xs ys else decide (x < y)

/-- insertion into an ascending key list. -/
def insert_key (x : String) : List String → List String
  | [] => [x]
  | y :: ys => if lex_le x.toList y.toList then x :: y :: ys else y :: insert_key x ys

/-- ascending sort of a key list. -/
def sort_keys : List String → List String
  | [] => []
  | x :: xs => insert_key x (sort_keys xs)

/-- Modelled from the spec: the blob-store listing (spec sections 1, 3 and 6).
The store is the set of persisted keys; list(prefix) returns the keys under
the prefix as an ordered sequence in ascending lexicographic key order (spec
section 3: keys are lexicographically sortable and the last key of the listing
order is the most recent), and a page size of max_keys returns only the first
max_keys keys of that order. -/
def s3_list (store : List String) (pfx : String) (max_keys : ℕ) : List String :=
  (sort_keys (store.filter (fun k => pfx.toList.isPrefixOf k.toList))).take max_keys

/-- splitting a character list on a separator; the result is never empty,
matching Rust's split('/'). -/
def split_char (sep : Char) : List Char → List (List Char)
  | [] => [[]]
  | c :: rest =>
    let r := split_char sep rest
    if c = sep then [] :: r
    else
      match r with
      | h :: t => (c :: h) :: t
      | [] => [[c]]

/-- repeatedly strip a trailing occurrence of pat, fuelled by the list
length (each strip removes at least one character). -/
def rstrip_aux : ℕ → List Char → List Char → List Char
  | 0, _, s => s
  | fuel + 1, pat, s =>
    if !pat.isEmpty && pat.isSuffixOf s then
      rstrip_aux fuel pat (s.take (s.length - pat.length))
    else s

/-- Rust's trim_end_matches: strip every trailing occurrence of pat. -/
def rstrip_all (pat s : List Char) : List Char :=
  rstrip_aux s.length pat s

/-- extract_timestamp (recovery.rs lines 139-143):
key.split on slash, last segment, trim trailing ".avro", parse as i64; the
parse unwrap panics (none) on a non-numeric segment.  split always yields at
least one segment, so last().unwrap() itself never panics. -/
def extract_timestamp (key : String) : Option ℤ :=
  match (split_char '/' key.toList).getLast? with
  | none => none
  | some seg => parse_i64_chars (rstrip_all (String.toList ".avro") seg)

/-- get_last_key (recovery.rs lines 45-53): list the bucket under the
"orderbook/" prefix with max_keys 1 and take contents().first(); the unwrap
panics (none) when no key exists under the prefix. -/
def get_last_key (store : List String) : Option String :=
  (s3_list store "orderbook/" 1).head?

/-- the gap check of recovery_handler (recovery.rs lines 30-41):
gap = snapshot_time - extract_timestamp(last_key), backfill iff gap > 5000;
none models a panic inside get_last_key or extract_timestamp. -/
def recovery_gap_check (store : List String) (snapshot_time : ℤ) : Option Bool :=
  match get_last_key store with
  | none => none
  | some k =>
    match extract_timestamp k with
    | none => none
    | some ts => some (decide (snapshot_time - ts > 5000))

/-- Follows the claim's words (spec section 4.5), for comparison with
get_last_key: the timestamp of the most recent persisted key, i.e. the maximum
embedded timestamp among the keys under the live partition prefix. -/
def last_persisted_ts_claim (store : List String) : Option ℤ :=
  ((store.filter (fun k => (String.toList "orderbook/").isPrefixOf k.toList)).filterMap
    extract_timestamp).max?

/-- an older persisted key (embedded timestamp 1000). -/
def key_a : String := "orderbook/year=2025/month=10/day=11/hour=23/1000.avro"

/-- a newer persisted key (embedded timestamp 9000). -/
def key_b : String := "orderbook/year=2025/month=10/day=12/hour=00/9000.avro"

/-- a concrete codec for witnesses: every non-digit frame decodes to the fixed
payload v, digit frames fail as required. -/
def test_codec (v : List (List String) × List (List String)) : JsonCodec where
  decode s := if s.toList.all Char.isDigit then none else some v
  digits_fail s h := by simp only [h, if_pos]

/-- a concrete codec for witnesses on malformed frames: nothing decodes. -/
def none_codec : JsonCodec where
  decode _ := none
  digits_fail _ _ := rfl

theorem target_price_false (mid d : ℚ) : target_price mid false d = mid * (1 - d) := rfl

theorem target_price_true (mid d : ℚ) : target_price mid true d = mid * (1 + d) := rfl

theorem level_qualifies_false (target : ℚ) (l : PriceLevel) :
    level_qualifies false target l = decide (l.1 ≥ target) := by
  simp [level_qualifies]

theorem level_qualifies_true (target : ℚ) (l : PriceLevel) :
    level_qualifies true target l = decide (l.1 ≤ target) := by
  simp [level_qualifies]

theorem foldl_add_if_mono (P Q : PriceLevel → Bool)
    (himp : ∀ l, P l = true → Q l = true) :
    ∀ levels : List PriceLevel, (∀ l ∈ levels, 0 ≤ l.2) →
      ∀ a b : ℚ, a ≤ b →
        levels.foldl (fun c l => if P l then c + l.2 else c) a ≤
          levels.foldl (fun c l => if Q l then c + l.2 else c) b := by
  intro levels
  induction levels with
  | nil => intro _ a b hab; simpa using hab
  | cons l ls ih =>
    intro hq a b hab
    have hl2 : 0 ≤ l.2 := hq l (List.mem_cons_self l ls)
    have hq2 : ∀ x ∈ ls, 0 ≤ x.2 := fun x hx => hq x (List.mem_cons_of_mem l hx)
    simp only [List.foldl_cons]
    apply ih hq2
    by_cases hP : P l = true
    · rw [if_pos hP, if_pos (himp l hP)]
      exact add_le_add_right hab l.2
    · rw [if_neg hP]
      by_cases hQ : Q l = true
      · rw [if_pos hQ]
        linarith
      · rw [if_neg hQ]
        exact hab

/-- Claim C1 (code bug).  At a parsed message with non-empty sides whose top-5
quantities are all zero, the unguarded division of main.rs line 64 yields the
non-finite 0.0/0.0 (NaN), which is neither 0.0 nor inside [-1, 1]; the guarded
computation of test_local.rs lines 95-99 yields exactly 0.0 as the claim
requires. -/
theorem C1_zero_volume_yields_non_finite :
    imbalance_main [((100 : ℚ), 0)] [((101 : ℚ), 0)] = none ∧
    imbalance_local [((100 : ℚ), 0)] [((101 : ℚ), 0)] = 0 := by
  constructor
  · norm_num [imbalance_main, fdiv, top5_vol]
  · norm_num [imbalance_local, top5_vol]

/-- Claim C2, counterexample.  As stated, over every mid price, monotonicity of
the cumulative quantity in the depth offset fails: at the negative mid price
-1000 with the single bid level (-995, 1), the bucket at offset 0.0001 holds
quantity 1 while the bucket at offset 0.01 holds 0. -/
theorem C2_counterexample :
    ¬ (∀ (levels : List PriceLevel) (mid : ℚ) (is_ask : Bool),
        (∀ l ∈ levels, 0 ≤ l.2) →
        ∀ d1 : ℚ, d1 ∈ depths → ∀ d2 : ℚ, d2 ∈ depths → d1 < d2 →
          cum_qty levels mid is_ask d1 ≤ cum_qty levels mid is_ask d2) := by
  intro hcl
  have h1 : cum_qty [((-995 : ℚ), 1)] (-1000) false (1 / 10000) = 1 := by
    norm_num [cum_qty, level_qualifies, target_price]
  have h2 : cum_qty [((-995 : ℚ), 1)] (-1000) false (1 / 100) = 0 := by
    norm_num [cum_qty, level_qualifies, target_price]
  have hmono := hcl [((-995 : ℚ), 1)] (-1000) false
    (by intro l hl; rw [List.mem_singleton] at hl; subst hl; norm_num)
    (1 / 10000) (by norm_num [depths]) (1 / 100) (by norm_num [depths]) (by norm_num)
  rw [h1, h2] at hmono
  exact absurd hmono (by norm_num)

/-- Claim C2, amended: for every level list with non-negative quantities, every
NON-NEGATIVE mid price and either side, the cumulative quantity of
normalize_to_depths is non-decreasing in the depth offset across D, because
the qualifying price set is non-shrinking. -/
theorem C2_monotone_for_nonneg_mid (levels : List PriceLevel) (mid : ℚ) (is_ask : Bool)
    (hq : ∀ l ∈ levels, 0 ≤ l.2) (hmid : 0 ≤ mid)
    (d1 : ℚ) (hd1 : d1 ∈ depths) (d2 : ℚ) (hd2 : d2 ∈ depths) (h12 : d1 < d2) :
    cum_qty levels mid is_ask d1 ≤ cum_qty levels mid is_ask d2 := by
  unfold cum_qty
  refine foldl_add_if_mono _ _ ?_ levels hq 0 0 le_rfl
  intro l hl
  cases is_ask with
  | false =>
    rw [level_qualifies_false, decide_eq_true_eq, target_price_false] at hl
    rw [level_qualifies_false, decide_eq_true_eq, target_price_false]
    have hts : mid * (1 - d2) ≤ mid * (1 - d1) :=
      mul_le_mul_of_nonneg_left (by linarith) hmid
    have hl' : mid * (1 - d1) ≤ l.1 := hl
    linarith
  | true =>
    rw [level_qualifies_true, decide_eq_true_eq, target_price_true] at hl
    rw [level_qualifies_true, decide_eq_true_eq, target_price_true]
    have hts : mid * (1 + d1) ≤ mid * (1 + d2) :=
      mul_le_mul_of_nonneg_left (by linarith) hmid
    linarith

/-- Witness for C2: a concrete instance of the amended monotonicity, bid side,
mid 100, one level (100, 1), offsets 0.0001 and 0.01. -/
theorem C2_witness :
    cum_qty [((100 : ℚ), 1)] 100 false (1 / 10000) ≤ cum_qty [((100 : ℚ), 1)] 100 false (1 / 100) :=
  C2_monotone_for_nonneg_mid [((100 : ℚ), 1)] 100 false
    (by intro l hl; rw [List.mem_singleton] at hl; subst hl; norm_num)
    (by norm_num)
    (1 / 10000) (by norm_num [depths]) (1 / 100) (by norm_num [depths]) (by norm_num)

/-- Claim C3 (code bug).  On a frame whose decoded bid side is empty,
process_message of main.rs indexes bids[0] with no empty-side check and
panics instead of skipping; the test_local.rs loop skips it as the claim
says. -/
theorem C3_empty_side_not_skipped (J : JsonCodec) (s : String)
    (h : J.decode s = some ([], [["1", "2"]])) (t1 t2 t3 : ℤ) :
    process_message J s t1 t2 = ProcResult.panicked ∧
    local_step J s t3 = LocalOutcome.skip_empty := by
  have hs : s.toList.all Char.isDigit = false := by
    cases hd : s.toList.all Char.isDigit with
    | false => rfl
    | true => rw [J.digits_fail s hd] at h; simp at h
  constructor
  · unfold process_message
    rw [h]
    rfl
  · unfold local_step
    rw [hs, h]
    rfl

/-- Witness for C3 at a concrete codec and frame. -/
theorem C3_witness :
    process_message (test_codec ([], [["1", "2"]])) "x" 0 0 = ProcResult.panicked ∧
    local_step (test_codec ([], [["1", "2"]])) "x" 0 = LocalOutcome.skip_empty :=
  C3_empty_side_not_skipped (test_codec ([], [["1", "2"]])) "x" (by decide) 0 0 0

/-- Claim C4 (code bug).  get_last_key of recovery.rs lists the prefix with
max_keys 1 and takes the FIRST key of the ascending listing, which is the
oldest key, not the key with the maximum embedded timestamp: on a store with
keys at timestamps 1000 and 9000 it extracts 1000 while the claim's value is
9000. -/
theorem C4_get_last_key_is_oldest :
    (get_last_key [key_b, key_a]).bind extract_timestamp = some 1000 ∧
    last_persisted_ts_claim [key_b, key_a] = some 9000 ∧ (1000 : ℤ) ≠ 9000 := by
  refine ⟨by decide, by decide, by decide⟩

/-- Claim C5 (code bug).  With no prior persisted key under the prefix,
get_last_key unwraps first() of an empty listing and panics (none), for every
snapshot time, instead of treating the absence as an infinite gap and
proceeding to backfill. -/
theorem C5_empty_store_panics :
    ∀ snapshot_time : ℤ, recovery_gap_check [] snapshot_time = none :=
  fun _ => rfl

/-- Claim C6 (code bug).  A malformed frame makes process_message return Err,
and the function_handler loop then sleeps backoff seconds and doubles the
backoff (capped at 30): the backoff state is NOT left unchanged and the
message is not merely skipped. -/
theorem C6_malformed_message_backoff (J : JsonCodec) (s : String)
    (h : J.decode s = none) (t1 t2 : ℤ) (b : ℕ) :
    handler_step (process_message J s t1 t2) b = StepOutcome.looped (some b) (min (b * 2) 30) := by
  have hpe : process_message J s t1 t2 = ProcResult.err := by
    unfold process_message
    rw [h]
  rw [hpe]
  rfl

/-- Witness for C6: a malformed frame at backoff 1 sleeps 1 second and leaves
backoff 2. -/
theorem C6_witness :
    handler_step (process_message none_codec "oops" 0 0) 1 = StepOutcome.looped (some 1) 2 :=
  C6_malformed_message_backoff none_codec "oops" rfl 0 0 1

/-- Claim C7 (code bug).  A frame of only decimal digits fails serde decoding
in main.rs, so process_message returns Err (feeding the error/backoff branch
of the handler) rather than a skip; the test_local.rs loop skips it as the
claim says, and no record is persisted in either path. -/
theorem C7_digit_frame_error_vs_skip (J : JsonCodec) (s : String)
    (h : s.toList.all Char.isDigit = true) (t1 t2 t3 : ℤ) :
    process_message J s t1 t2 = ProcResult.err ∧ local_step J s t3 = LocalOutcome.skip_ping := by
  constructor
  · unfold process_message
    rw [J.digits_fail s h]
  · unfold local_step
    rw [h]
    rfl

/-- Witness for C7 at the digit frame "00123" (leading zeros, arbitrary
length). -/
theorem C7_witness :
    process_message none_codec "00123" 5 6 = ProcResult.err ∧
    local_step none_codec "00123" 7 = LocalOutcome.skip_ping :=
  C7_digit_frame_error_vs_skip none_codec "00123" (by decide) 5 6 7

/-- Claim C8 (code bug).  On a decoded message carrying a one-field bid level
and an ask level with a non-numeric price, the indexing and unwrap of main.rs
lines 49-57 panic, rejecting the whole message; the filter_map of
test_local.rs drops exactly the bad level on each side and still writes the
record, which is the claimed behaviour. -/
theorem C8_bad_level_panics_main (J : JsonCodec) (s : String)
    (h : J.decode s = some ([["100"], ["99", "1"]], [["abc", "9"], ["101", "2"]]))
    (t1 t2 t3 : ℤ) :
    process_message J s t1 t2 = ProcResult.panicked ∧
    parse_levels_local [["100"], ["99", "1"]] = [((99 : ℚ), 1)] ∧
    parse_levels_local [["abc", "9"], ["101", "2"]] = [((101 : ℚ), 2)] ∧
    wrote_some (local_step J s t3) = true := by
  have hs : s.toList.all Char.isDigit = false := by
    cases hd : s.toList.all Char.isDigit with
    | false => rfl
    | true => rw [J.digits_fail s hd] at h; simp at h
  refine ⟨?_, by decide, by decide, ?_⟩
  · unfold process_message
    rw [h]
    rfl
  · unfold local_step
    rw [hs, h]
    rfl

/-- Witness for C8 at a concrete codec and frame. -/
theorem C8_witness :
    process_message (test_codec ([["100"], ["99", "1"]], [["abc", "9"], ["101", "2"]])) "x" 0 0 =
      ProcResult.panicked ∧
    parse_levels_local [["100"], ["99", "1"]] = [((99 : ℚ), 1)] ∧
    parse_levels_local [["abc", "9"], ["101", "2"]] = [((101 : ℚ), 2)] ∧
    wrote_some (local_step (test_codec ([["100"], ["99", "1"]], [["abc", "9"], ["101", "2"]])) "x" 3) =
      true :=
  C8_bad_level_panics_main (test_codec ([["100"], ["99", "1"]], [["abc", "9"], ["101", "2"]]))
    "x" (by decide) 0 0 3

/-- Claim C9 (code bug).  The timestamp embedded in the partition key of a
persisted record is the SECOND Utc::now() read (main.rs line 79), while the
record's timestamp_ms field holds the earlier read of line 70: the two are
independent clock reads, so the embedded component equals the stored field
only when no millisecond boundary is crossed in between. -/
theorem C9_key_ts_is_second_clock_read (J : JsonCodec) (s : String)
    (h : J.decode s = some ([["100", "1"]], [["101", "2"]])) (t_record t_key : ℤ) :
    result_key_ts (process_message J s t_record t_key) = some t_key ∧
    result_record_ts (process_message J s t_record t_key) = some t_record := by
  have hpm : process_message J s t_record t_key =
      process_decoded [["100", "1"]] [["101", "2"]] t_record t_key := by
    unfold process_message
    rw [h]
  rw [hpm]
  exact ⟨rfl, rfl⟩

/-- Witness for C9: clock reads 1000 then 1001 give a record storing 1000
under a key embedding 1001. -/
theorem C9_witness :
    result_key_ts (process_message (test_codec ([["100", "1"]], [["101", "2"]])) "x" 1000 1001) =
      some 1001 ∧
    result_record_ts (process_message (test_codec ([["100", "1"]], [["101", "2"]])) "x" 1000 1001) =
      some 1000 :=
  C9_key_ts_is_second_clock_read (test_codec ([["100", "1"]], [["101", "2"]])) "x" (by decide)
    1000 1001

/-- Claim C10 (confirmed).  For every level list (the empty one included) and
every mid price, normalize_to_depths returns exactly 5 pairs, one per offset
of D in order, whose first component is mid * (1 + d) for asks and
mid * (1 - d) for bids; on the empty list every cumulative quantity is 0.0,
and the function is total. -/
theorem C10_normalize_shape (levels : List PriceLevel) (mid : ℚ) (is_ask : Bool) :
    (normalize_to_depths levels mid is_ask).length = 5 ∧
    (normalize_to_depths levels mid is_ask).map Prod.fst =
      depths.map (fun d => if is_ask then mid * (1 + d) else mid * (1 - d)) ∧
    normalize_to_depths [] mid is_ask =
      depths.map (fun d => (if is_ask then mid * (1 + d) else mid * (1 - d), 0)) := by
  refine ⟨?_, ?_, ?_⟩
  · simp [normalize_to_depths, depths]
  · simp [normalize_to_depths, target_price]
  · simp [normalize_to_depths, cum_qty, target_price]
